import Mathlib

/-!
Verification of the OOH (out-of-home advertising) matching engine of the
`trinity` repository, translated from `src/.migration/src/core/ooh/analyzer.py`,
`panel.py`, `logic.py` and `schema.py`.

Modelling conventions:
* Python floats are modelled as exact rationals (`ℚ`); every IEEE double is a
  rational number, and no claim under study depends on rounding error of
  binary floating point.  Transcendental computations (`math.exp`, the
  haversine trigonometry) are modelled over `ℝ`.
* Python's built-in `round(x, n)` rounds half to even ("banker's rounding");
  it is modelled exactly by `rnd`/`rndTo` below.
* `polars` dataframes are modelled as lists of typed records; a column that
  may hold `null` becomes an `Option` field.  Filters translate to
  `List.filter` with the same predicates; polars comparisons involving `null`
  evaluate to `null` and the row is dropped, which the `Option` matches below
  reproduce.
* Functions that raise exceptions are modelled with `Option` results
  (`none` = raised).
-/

namespace Trinity

/-! ## Python rounding: `round(x)` rounds half to even -/

section Rounding

variable {α : Type} [LinearOrderedField α] [FloorRing α]

/-- Python's built-in `round` on exact values: nearest integer, ties going to
the even neighbour (banker's rounding). -/
def rnd (x : α) : ℤ :=
  if Int.fract x = 1 / 2 then (if ⌊x⌋ % 2 = 0 then ⌊x⌋ else ⌊x⌋ + 1) else round x

/-- Python's `round(x, n)` for `n ≥ 0` decimal digits. -/
def rndTo (n : ℕ) (x : α) : α := (rnd (x * 10 ^ n) : α) / 10 ^ n

theorem fract_half_eq {x : α} (h : Int.fract x = 1 / 2) : x = (⌊x⌋ : α) + 1 / 2 := by
  have := Int.self_sub_floor x
  rw [h] at this
  linarith

theorem rnd_intCast (n : ℤ) : rnd ((n : α)) = n := by
  have h0 : Int.fract ((n : α)) = 0 := Int.fract_intCast n
  have : ¬ Int.fract ((n : α)) = 1 / 2 := by rw [h0]; norm_num
  simp [rnd, this, round_intCast]

theorem rnd_zero : rnd (0 : α) = 0 := by
  simpa using rnd_intCast (α := α) 0

theorem floor_le_rnd (x : α) : ⌊x⌋ ≤ rnd x := by
  unfold rnd
  split
  · split
    · exact le_refl _
    · omega
  · rw [round_eq]
    exact Int.floor_mono (by linarith)

theorem rnd_le_floor_add_one (x : α) : rnd x ≤ ⌊x⌋ + 1 := by
  unfold rnd
  split
  · split
    · omega
    · exact le_refl _
  · rw [round_eq]
    have : x + 1 / 2 < (⌊x⌋ : α) + 1 + 1 := by
      have := Int.lt_floor_add_one x
      linarith
    have h2 : ⌊x + 1 / 2⌋ < ⌊x⌋ + 1 + 1 := by
      rw [Int.floor_lt]
      push_cast
      linarith
    omega

theorem le_rnd (x : α) : x - 1 / 2 ≤ (rnd x : α) := by
  unfold rnd
  split
  · rename_i h
    have hx := fract_half_eq h
    split
    · push_cast; linarith
    · push_cast; linarith
  · have := sub_half_lt_round x
    linarith

theorem rnd_le (x : α) : (rnd x : α) ≤ x + 1 / 2 := by
  unfold rnd
  split
  · rename_i h
    have hx := fract_half_eq h
    split
    · push_cast; linarith
    · push_cast; linarith
  · exact round_le_add_half x

theorem rnd_mono {x y : α} (h : x ≤ y) : rnd x ≤ rnd y := by
  by_cases hx : Int.fract x = 1 / 2 <;> by_cases hy : Int.fract y = 1 / 2
  · -- both exact ties
    have hex := fract_half_eq hx
    have hey := fract_half_eq hy
    have hfl : ⌊x⌋ ≤ ⌊y⌋ := Int.floor_mono h
    rcases eq_or_lt_of_le hfl with heq | hlt
    · have : x = y := by rw [hex, hey, heq]
      rw [this]
    · calc rnd x ≤ ⌊x⌋ + 1 := rnd_le_floor_add_one x
        _ ≤ ⌊y⌋ := by omega
        _ ≤ rnd y := floor_le_rnd y
    -- x tie, y not
  · have hex := fract_half_eq hx
    have h1 : rnd x ≤ ⌊x⌋ + 1 := rnd_le_floor_add_one x
    have h2 : rnd y = round y := by simp only [rnd, if_neg hy]
    have h3 : (⌊x⌋ + 1 : ℤ) ≤ round y := by
      rw [round_eq]
      have : ((⌊x⌋ + 1 : ℤ) : α) ≤ y + 1 / 2 := by push_cast; linarith
      calc (⌊x⌋ + 1 : ℤ) = ⌊((⌊x⌋ + 1 : ℤ) : α)⌋ := (Int.floor_intCast _).symm
        _ ≤ ⌊y + 1 / 2⌋ := Int.floor_mono this
    omega
    -- y tie, x not
  · have hey := fract_half_eq hy
    have hxy : x < y := by
      rcases lt_or_eq_of_le h with h' | h'
      · exact h'
      · exact absurd (h' ▸ hy) hx
    have h1 : rnd x = round x := by simp only [rnd, if_neg hx]
    have h2 : ⌊y⌋ ≤ rnd y := floor_le_rnd y
    have h3 : round x ≤ ⌊y⌋ := by
      rw [round_eq]
      have : x + 1 / 2 < ((⌊y⌋ + 1 : ℤ) : α) := by push_cast; linarith
      have := (Int.floor_lt).mpr this
      omega
    omega
  · simp only [rnd, hx, hy, if_false, round_eq]
    exact Int.floor_mono (by linarith)

theorem rnd_nonneg {x : α} (h : 0 ≤ x) : 0 ≤ rnd x := by
  have := rnd_mono (α := α) h
  rwa [rnd_zero] at this

theorem rnd_le_intCast {x : α} {n : ℤ} (h : x ≤ (n : α)) : rnd x ≤ n := by
  have := rnd_mono h
  rwa [rnd_intCast] at this

theorem rndTo_zero (n : ℕ) : rndTo n (0 : α) = 0 := by
  simp [rndTo, rnd_zero]

theorem rndTo_nonneg {n : ℕ} {x : α} (h : 0 ≤ x) : 0 ≤ rndTo n x := by
  have h1 : (0 : α) ≤ x * 10 ^ n := by positivity
  have h2 : (0 : ℤ) ≤ rnd (x * 10 ^ n) := rnd_nonneg h1
  have h3 : (0 : α) ≤ (rnd (x * 10 ^ n) : α) := by exact_mod_cast h2
  have h4 : (0 : α) < 10 ^ n := by positivity
  exact div_nonneg h3 (le_of_lt h4)

theorem rndTo_le_one {n : ℕ} {x : α} (h : x ≤ 1) : rndTo n x ≤ 1 := by
  have h1 : x * 10 ^ n ≤ ((10 ^ n : ℤ) : α) := by
    push_cast
    have h4 : (0 : α) < 10 ^ n := by positivity
    nlinarith
  have h2 : rnd (x * 10 ^ n) ≤ (10 ^ n : ℤ) := rnd_le_intCast h1
  have h3 : (rnd (x * 10 ^ n) : α) ≤ ((10 ^ n : ℤ) : α) := by exact_mod_cast h2
  have h4 : (0 : α) < 10 ^ n := by positivity
  rw [rndTo, div_le_one h4]
  push_cast at h3 ⊢
  linarith

theorem rndTo_mono {n : ℕ} {x y : α} (h : x ≤ y) : rndTo n x ≤ rndTo n y := by
  have h4 : (0 : α) < 10 ^ n := by positivity
  have h1 : x * 10 ^ n ≤ y * 10 ^ n := by nlinarith
  have h2 := rnd_mono h1
  rw [rndTo, rndTo, div_le_div_iff_of_pos_right h4]
  exact_mod_cast h2

end Rounding

/-! ## Constants and enums from `schema.py` -/

namespace AnalyzerParams

def RADIUS_MAX_MF : ℚ := 0.1
def RADIUS_MAX_DEFAULT : ℚ := 5.0
def RADIUS_MIN_MF : ℚ := 0.0
def RADIUS_MIN_DEFAULT : ℚ := 0.0
def RADIUS_STEP_MF : ℚ := 0.01
def RADIUS_STEP_DEFAULT : ℚ := 0.5
def REQUIRED_COUNT_MIN : ℕ := 3
def REQUIRED_COUNT_DEFAULT : ℕ := 10
def BASE_PRICE_TOLERANCE : ℚ := 0.5
def SIZE_TOLERANCE : ℚ := 0.15

end AnalyzerParams

namespace Formats

def MF : String := "MF"
def DIGITAL : String := "DIGITAL"
def NON_DIGITAL : String := "NON_DIGITAL"

end Formats

namespace CMethod

def default : String := "По умолчанию"
def operator_plus : String := "Оператор+"

end CMethod

namespace SMethod

def mean : String := "Среднее"
def weighted_mean : String := "Взвешенное среднее"
def trimmed_mean : String := "Усеченное среднее"
def median : String := "Медиана"

end SMethod

/-- Analyzer settings (`orm.settings.OOHSettings`): the pricing method
(`c_method`) and the smoothing/aggregation method (`s_method`). -/
structure OOHSettings where
  c_method : String
  s_method : String

/-! ## `logic.py`: class `Geo` -/

namespace Geo

/-- Source `math.atan2(y, x)`. -/
noncomputable def atan2 (y x : ℝ) : ℝ :=
  if 0 < x then Real.arctan (y / x)
  else if x < 0 then
    (if 0 ≤ y then Real.arctan (y / x) + Real.pi else Real.arctan (y / x) - Real.pi)
  else
    (if 0 < y then Real.pi / 2 else if y < 0 then -(Real.pi / 2) else 0)

/-- Source `Geo.calc_distance`: great-circle distance between two points, Earth radius
6371 km, computed with `atan2` and rounded to `n` decimals (source default
`n = 4`); `meters = true` converts to meters before rounding. -/
noncomputable def calc_distance (lat_1 lon_1 lat_2 lon_2 : ℚ) (n : ℕ) (meters : Bool) : ℝ :=
  let R : ℝ := 6371.0
  let lat1_rad : ℝ := (lat_1 : ℝ) * Real.pi / 180
  let lon1_rad : ℝ := (lon_1 : ℝ) * Real.pi / 180
  let lat2_rad : ℝ := (lat_2 : ℝ) * Real.pi / 180
  let lon2_rad : ℝ := (lon_2 : ℝ) * Real.pi / 180
  let dlat := lat2_rad - lat1_rad
  let dlon := lon2_rad - lon1_rad
  let a := Real.sin (dlat / 2) ^ 2 +
    Real.cos lat1_rad * Real.cos lat2_rad * Real.sin (dlon / 2) ^ 2
  let c := 2 * atan2 (Real.sqrt a) (Real.sqrt (1 - a))
  let distance := R * c
  rndTo n (if meters then distance * 1000 else distance)

/-- Source `Geo.is_close`: whether the two points lie within `radius` of each other
(kilometers when `meters = false`). -/
noncomputable def is_close (lat_1 lon_1 lat_2 lon_2 : ℚ) (radius : ℚ) (meters : Bool) : Prop :=
  calc_distance lat_1 lon_1 lat_2 lon_2 4 meters ≤ (radius : ℝ)

/-- Source `Geo.get_subject`: subject name from its code; unknown codes map to the
catch-all "Регионы" bucket. -/
def get_subject (subject_code : String) : String :=
  if subject_code = "RU-MOW" then "Москва"
  else if subject_code = "RU-MOS" then "Московская область"
  else if subject_code = "RU-SPB" then "Санкт-Петербург"
  else if subject_code = "RU-LEN" then "Ленинградская область"
  else "Регионы"

end Geo

/-- The numpy haversine of `Analyzer._calc_dist` (arcsin form, Earth radius
6371 km, no rounding): the values of the `_distance` column. -/
noncomputable def haversine (lat_1 lon_1 lat_2 lon_2 : ℚ) : ℝ :=
  let R : ℝ := 6371.0
  let lat1_rad : ℝ := (lat_1 : ℝ) * Real.pi / 180
  let lon1_rad : ℝ := (lon_1 : ℝ) * Real.pi / 180
  let lat2_rad : ℝ := (lat_2 : ℝ) * Real.pi / 180
  let lon2_rad : ℝ := (lon_2 : ℝ) * Real.pi / 180
  let dlat := lat2_rad - lat1_rad
  let dlon := lon2_rad - lon1_rad
  let a := Real.sin (dlat / 2) ^ 2 +
    Real.cos lat1_rad * Real.cos lat2_rad * Real.sin (dlon / 2) ^ 2
  let c := 2 * Real.arcsin (Real.sqrt a)
  R * c

/-! ## `logic.py`: class `Coefficient` -/

namespace Coefficient

/-- Source `Coefficient.calc_distance_c`: distance-decay coefficient.  Returns `1.0`
when `0 ≤ radius ≤ 0.1`, otherwise `exp (-decay_rate * (distance / radius))`
rounded to `n` decimals (source default `decay_rate = 1.0`, `n = 4`). -/
noncomputable def calc_distance_c (distance radius decay_rate : ℝ) (n : ℕ) : ℝ :=
  if 0 ≤ radius ∧ radius ≤ 0.1 then 1.0
  else rndTo n (Real.exp (-decay_rate * (distance / radius)))

/-- Lookup in a Python dict with string keys, modelled as an association
list (`dict.get`). -/
def lookupStr {β : Type} (l : List (String × β)) (k : String) : Option β :=
  (l.find? (fun p => p.1 == k)).map (·.2)

/-- Lookup of `target_rates[str(year)]`; the year keys (`str(year)` in the
source, an injective encoding of the year) are modelled as integers. -/
def lookupYear (l : List (ℤ × ℚ)) (y : ℤ) : Option ℚ :=
  (l.find? (fun p => p.1 == y)).map (·.2)

/-- Python's `range(a, b)` over integers. -/
def year_range (a b : ℤ) : List ℤ :=
  (List.range (b - a).toNat).map (fun i => a + (i : ℤ))

/-- Resolution of the rate table in `calc_inflation_c`: the subject's table is
used when `rates_dict.get(subject_code)` is truthy (present and non-empty) and
has the format; otherwise the default table; `none` models the raised
`KeyError` when neither exists. -/
def resolve_rates (rates_dict : List (String × List (String × List (ℤ × ℚ))))
    (subject_code format_type : String)
    (default_rates : Option (List (ℤ × ℚ))) : Option (List (ℤ × ℚ)) :=
  let target? : Option (List (ℤ × ℚ)) :=
    match lookupStr rates_dict subject_code with
    | some sr => if sr.isEmpty then none else lookupStr sr format_type
    | none => none
  match target? with
  | some t => some t
  | none => default_rates

/-- The multiplication loop of `calc_inflation_c` (`year_from < year_to`):
`cumulative_rate *= rate` over the years, `none` when a year is missing. -/
def cum_mul (target : List (ℤ × ℚ)) (acc : ℚ) : List ℤ → Option ℚ
  | [] => some acc
  | y :: ys =>
    match lookupYear target y with
    | none => none
    | some r => cum_mul target (acc * r) ys

/-- The division loop of `calc_inflation_c` (`year_from > year_to`):
`cumulative_rate /= rate`, `none` when a year is missing or a rate is zero. -/
def cum_div (target : List (ℤ × ℚ)) (acc : ℚ) : List ℤ → Option ℚ
  | [] => some acc
  | y :: ys =>
    match lookupYear target y with
    | none => none
    | some r => if r = 0 then none else cum_div target (acc / r) ys

/-- Source `Coefficient.calc_inflation_c`: cumulative inflation coefficient between
two years; `none` models every raised exception (missing subject/format with
no default, missing year, zero rate while dividing).  The final result is
rounded to `n` decimals (source default `n = 4`); the `year_from = year_to`
case returns the initial `1.0` unrounded. -/
def calc_inflation_c (rates_dict : List (String × List (String × List (ℤ × ℚ))))
    (subject_code format_type : String) (year_from year_to : ℤ)
    (default_rates : Option (List (ℤ × ℚ))) (n : ℕ) : Option ℚ :=
  match resolve_rates rates_dict subject_code format_type default_rates with
  | none => none
  | some target =>
    if year_from = year_to then some 1
    else if year_from < year_to then
      (cum_mul target 1 (year_range year_from year_to)).map (rndTo n)
    else
      (cum_div target 1 (year_range year_to year_from)).map (rndTo n)

end Coefficient

/-! ## `panel.py`: `Construction` and `Panel` -/

/-- A matched candidate held by a `Panel` (pydantic model `Construction` in
`panel.py`).  `weight` is the distance-decay weight, a value of `np.exp`, and
is therefore carried over `ℝ`. -/
structure Construction where
  advertiser : String
  operator : Option String
  format : String
  size : Option String
  side : Option String
  latitude : ℚ
  longitude : ℚ
  base_price : ℚ
  weight : ℝ

/-- Source `Construction.description`: `"{format} {size-or-'-'}"`. -/
def Construction.description (c : Construction) : String :=
  c.format ++ " " ++ (c.size.getD "-")

/-- A panel: the ordered collection of matched candidates for one input row. -/
structure Panel where
  constructions : List Construction

open Classical in
/-- The inner loop of `Panel.filter_panel`: is `construction` a duplicate of
some already-kept candidate (same advertiser and within 10 m)?  The advertiser
comparison short-circuits before `Geo.is_close`, exactly as in the source. -/
noncomputable def is_duplicate (construction : Construction) : List Construction → Bool
  | [] => false
  | u :: us =>
    if construction.advertiser = u.advertiser then
      if Geo.is_close construction.latitude construction.longitude
          u.latitude u.longitude 0.01 false then true
      else is_duplicate construction us
    else is_duplicate construction us

/-- The outer loop of `Panel.filter_panel`: keep each candidate unless it
duplicates an already-kept one (first occurrence wins). -/
noncomputable def filter_panel_list :
    List Construction → List Construction → List Construction
  | uniques, [] => uniques
  | uniques, c :: cs =>
    if is_duplicate c uniques then filter_panel_list uniques cs
    else filter_panel_list (uniques ++ [c]) cs

/-- Source `Panel.filter_panel`: proximity deduplication (source mutates in place;
modelled as a function). -/
noncomputable def Panel.filter_panel (p : Panel) : Panel :=
  ⟨filter_panel_list [] p.constructions⟩

/-- Source `Panel.is_empty`. -/
def Panel.is_empty (p : Panel) : Bool := p.constructions.isEmpty

/-- Source `Panel.size`. -/
def Panel.size (p : Panel) : ℕ := p.constructions.length

/-- Ascending sort of prices, as performed by `np.median` / `scipy.trim_mean`. -/
def sortedQ (l : List ℚ) : List ℚ := l.insertionSort (· ≤ ·)

/-- Source `Panel._calc_mean_price` (`np.mean`); `0.0` on an empty panel. -/
def Panel.calc_mean_price (p : Panel) : ℚ :=
  if p.is_empty then 0
  else
    let prices := p.constructions.map (·.base_price)
    prices.sum / (prices.length : ℚ)

/-- Source `Panel._calc_weighted_mean_price` (`np.average` weighted by `weight`);
`0.0` on an empty panel; `none` models the `ZeroDivisionError` that
`np.average` raises when the weights sum to zero. -/
noncomputable def Panel.calc_weighted_mean_price (p : Panel) : Option ℝ :=
  if p.is_empty then some 0
  else
    let wsum := (p.constructions.map (·.weight)).sum
    if wsum = 0 then none
    else some ((p.constructions.map (fun c => c.weight * (c.base_price : ℝ))).sum / wsum)

/-- Source `Panel._calc_trimmed_mean_price` (`scipy.stats.trim_mean`, 10 % cut from
each tail: `int(0.1 * nobs)` elements dropped at both ends of the sorted
prices); `0.0` on an empty panel. -/
def Panel.calc_trimmed_mean_price (p : Panel) : ℚ :=
  if p.is_empty then 0
  else
    let prices := sortedQ (p.constructions.map (·.base_price))
    let nobs := prices.length
    let lowercut := nobs / 10
    let uppercut := nobs - lowercut
    let sliced := (prices.drop lowercut).take (uppercut - lowercut)
    sliced.sum / (sliced.length : ℚ)

/-- Source `Panel._calc_median_price` (`np.median`); `0.0` on an empty panel. -/
def Panel.calc_median_price (p : Panel) : ℚ :=
  if p.is_empty then 0
  else
    let s := sortedQ (p.constructions.map (·.base_price))
    let n := s.length
    if n % 2 = 1 then s.getD (n / 2) 0
    else (s.getD (n / 2 - 1) 0 + s.getD (n / 2) 0) / 2

/-- Source `Panel.calc_base_price`: dispatch on the smoothing method, rounding the
result to `n` decimals (source default `n = 0`); `none` models the
`ValueError` raised for an unsupported method (and the error propagated from
`np.average` on zero total weight). -/
noncomputable def Panel.calc_base_price (p : Panel) (method : String) (n : ℕ) : Option ℝ :=
  if method = SMethod.mean then some (rndTo n ((p.calc_mean_price : ℚ) : ℝ))
  else if method = SMethod.weighted_mean then (p.calc_weighted_mean_price).map (rndTo n)
  else if method = SMethod.trimmed_mean then some (rndTo n ((p.calc_trimmed_mean_price : ℚ) : ℝ))
  else if method = SMethod.median then some (rndTo n ((p.calc_median_price : ℚ) : ℝ))
  else none

/-- Source `Panel.get_advertisers`: sorted unique advertisers. -/
def Panel.get_advertisers (p : Panel) : List String :=
  ((p.constructions.map (·.advertiser)).dedup).insertionSort (· ≤ ·)

/-- Source `Panel.get_operators`: sorted unique non-null operators. -/
def Panel.get_operators (p : Panel) : List String :=
  ((p.constructions.filterMap (·.operator)).dedup).insertionSort (· ≤ ·)

/-- Source `Panel.get_constructions`: sorted unique descriptions. -/
def Panel.get_constructions (p : Panel) : List String :=
  ((p.constructions.map Construction.description).dedup).insertionSort (· ≤ ·)

/-- The counting pass of `Panel._get_attribute_shares`: occurrence counts per
non-null value, in first-occurrence order (Python dict insertion order). -/
def counts_fold (vals : List (Option String)) : List (String × ℕ) :=
  vals.foldl
    (fun (acc : List (String × ℕ)) v =>
      match v with
      | none => acc
      | some s =>
        if acc.any (fun q => q.1 == s) then
          acc.map (fun q => if q.1 == s then (q.1, q.2 + 1) else q)
        else acc ++ [(s, 1)])
    []

/-- Source `Panel._get_attribute_shares`: percentage shares per value (nulls excluded
from the denominator), sorted by descending count (stable, like Python's
`sorted(..., reverse=True)`), with low-frequency values folded into an
"Остальные" bucket when `top_n` is given; each share is
`round(count / total * 100, n)`. -/
def get_attribute_shares (vals : List (Option String)) (top_n : Option ℕ) (n : ℕ) :
    List (String × ℚ) :=
  let counts := counts_fold vals
  let total : ℕ := (counts.map (·.2)).sum
  if total = 0 then []
  else
    let sorted_items := counts.insertionSort (fun a b => b.2 ≤ a.2)
    let items : List (String × ℕ) :=
      match top_n with
      | some k =>
        if k < sorted_items.length then
          let top := sorted_items.take k
          let rest := ((sorted_items.drop k).map (·.2)).sum
          if 0 < rest then top ++ [("Остальные", rest)] else top
        else sorted_items
      | none => sorted_items
    items.map (fun q => (q.1, rndTo n ((q.2 : ℚ) / (total : ℚ) * 100)))

/-- String rendering of a share dictionary (`'{name}: {share:.n f}%'`); the
fixed-point decimal rendering of the already-rounded share is presentation
only and is idealized by `toString`. -/
def shares_string (items : List (String × ℚ)) : String :=
  ", ".intercalate (items.map (fun q => q.1 ++ ": " ++ toString q.2 ++ "%"))

/-- Source `Panel.get_advertiser_shares(as_string=True)` (default `top_n=None`, `n=2`). -/
def Panel.get_advertiser_shares (p : Panel) : String :=
  shares_string (get_attribute_shares (p.constructions.map (fun c => some c.advertiser)) none 2)

/-- Source `Panel.get_operator_shares(as_string=True)` (default `top_n=None`, `n=2`). -/
def Panel.get_operator_shares (p : Panel) : String :=
  shares_string (get_attribute_shares (p.constructions.map (·.operator)) none 2)

/-! ## `analyzer.py`: the matching engine

An input row (`**kwargs` of one `df` row) and a reference-pool row are typed
records.  `RefRow.dist` is the `_distance` column: in the source it is
attached by `Analyzer._calc_dist` (the `haversine` above, whose float values
are rationals); the search itself only consumes the column, so it is carried
as data here.  `width`/`height` are the `_width`/`_height` tech columns. -/

structure LineRow where
  advertiser : String
  operator : String
  format : String
  size : Option String
  side : Option String
  latitude : ℚ
  longitude : ℚ
  base_price : ℚ
  is_digital : Bool
  subject_code : String
  width : Option ℚ
  height : Option ℚ
deriving DecidableEq

structure RefRow where
  advertiser : String
  operator : Option String
  format : String
  size : Option String
  side : Option String
  latitude : ℚ
  longitude : ℚ
  base_price : Option ℚ
  rental_c : ℚ
  is_digital : Bool
  subject_code : String
  width : Option ℚ
  height : Option ℚ
  dist : ℚ
deriving DecidableEq

/-- Source `Analyzer._filter_fmt_mf`. -/
def filter_fmt_mf (db : List RefRow) : List RefRow :=
  db.filter (fun r => r.format == Formats.MF)

/-- Source `Analyzer._filter_subj`: restrict to the row's subject code under the
`operator_plus` pricing method, otherwise no restriction. -/
def filter_subj (st : OOHSettings) (row : LineRow) (db : List RefRow) : List RefRow :=
  if st.c_method = CMethod.operator_plus then
    db.filter (fun r => r.subject_code == row.subject_code)
  else db

/-- Source `Analyzer._filter_dist_price`: distance within `radius` and non-null price
within the absolute tolerance (null prices are dropped by the polars filter). -/
def filter_dist_price (db : List RefRow) (radius price_tol_abs base_price : ℚ) :
    List RefRow :=
  db.filter (fun r =>
    decide (r.dist ≤ radius) &&
      (match r.base_price with
       | some p => decide (|p - base_price| ≤ price_tol_abs)
       | none => false))

/-- Source `Analyzer._filter_digital`. -/
def filter_digital (row : LineRow) (db : List RefRow) : List RefRow :=
  db.filter (fun r => r.is_digital == row.is_digital)

/-- Source `Analyzer._filter_size`: 15 % tolerance on width and height when the input
row has both, empty result when it has exactly one, no filtering when it has
neither (rows with null sizes are dropped by the polars filter). -/
def filter_size (row : LineRow) (db : List RefRow) : List RefRow :=
  match row.width, row.height with
  | some w, some h =>
    db.filter (fun r =>
      match r.width, r.height with
      | some rw, some rh =>
        decide (|rw - w| ≤ w * AnalyzerParams.SIZE_TOLERANCE) &&
          decide (|rh - h| ≤ h * AnalyzerParams.SIZE_TOLERANCE)
      | _, _ => false)
  | none, none => db
  | _, _ => []

/-- Source `Analyzer._apply_op_filter` (`operator_plus` only): when the subject has a
configured top-operator list, keep exact-operator matches if the row's
operator is a top operator, else exclude all top-operator rows (a null
operator is dropped by the polars `is_in` null semantics). -/
def apply_op_filter (subjects : String → List String) (row : LineRow)
    (db : List RefRow) : List RefRow :=
  let top_ops := subjects row.subject_code
  if top_ops.isEmpty then db
  else if row.operator ∈ top_ops then
    db.filter (fun r => r.operator == some row.operator)
  else
    db.filter (fun r =>
      match r.operator with
      | some o => decide (o ∉ top_ops)
      | none => false)

/-- Source `Analyzer._apply_lvl_fltrs`: digital, then size, then (for `operator_plus`
at levels other than 2 and -1) the operator filter; returns early on an empty
intermediate result. -/
def apply_lvl_fltrs (st : OOHSettings) (subjects : String → List String)
    (lvl : ℤ) (row : LineRow) (db : List RefRow) : List RefRow :=
  let filtered1 := filter_digital row db
  if filtered1.isEmpty then filtered1
  else
    let filtered2 := filter_size row filtered1
    if filtered2.isEmpty then filtered2
    else if st.c_method = CMethod.operator_plus ∧ lvl ∉ ([2, -1] : List ℤ) then
      apply_op_filter subjects row filtered2
    else filtered2

/-- One weight of `Analyzer._calc_weights`: all ones when `0 ≤ radius ≤ 0.1`,
otherwise `exp (-(dist / radius))` (decay rate 1.0) clamped to `≥ 0`
(`np.maximum`); the forcing of non-finite floats to 0 cannot occur in exact
arithmetic, where `exp` is always finite. -/
noncomputable def calc_weight (dist radius : ℚ) : ℝ :=
  if 0 ≤ radius ∧ radius ≤ 0.1 then 1
  else max 0 (Real.exp (-(1 : ℝ) * ((dist : ℝ) / (radius : ℝ))))

/-- Source `Analyzer._calc_weights`: attach the `_weight` column. -/
noncomputable def calc_weights (db : List RefRow) (radius : ℚ) : List (RefRow × ℝ) :=
  db.map (fun r => (r, calc_weight r.dist radius))

/-- Source `Analyzer._build_panel`: a `Panel` from the candidate rows (every row
reaching this point has passed the non-null price filter, so `getD 0` in the
`base_price` field never fires). -/
noncomputable def build_panel (db_cand : List (RefRow × ℝ)) : Panel :=
  if db_cand.isEmpty then ⟨[]⟩
  else
    ⟨db_cand.map (fun rw =>
      { advertiser := rw.1.advertiser
        operator := rw.1.operator
        format := rw.1.format
        size := rw.1.size
        side := rw.1.side
        latitude := rw.1.latitude
        longitude := rw.1.longitude
        base_price := rw.1.base_price.getD 0
        weight := rw.2 })⟩

/-- Source `Analyzer._filter_panel_l0`: proximity deduplication, level 0 only. -/
noncomputable def filter_panel_l0 (panel : Panel) : Panel :=
  if panel.is_empty then panel else panel.filter_panel

/-- Source `Analyzer._check_panel_count`: at least `REQUIRED_COUNT_MIN = 3` members
at level 0, at least `REQUIRED_COUNT_DEFAULT = 10` at any other level. -/
def check_panel_count (panel : Panel) (lvl : ℤ) : Bool :=
  let req := if lvl = 0 then AnalyzerParams.REQUIRED_COUNT_MIN
             else AnalyzerParams.REQUIRED_COUNT_DEFAULT
  decide (panel.size ≥ req)

/-- Source `np.arange(start, stop, step)` in exact arithmetic: `⌈(stop-start)/step⌉`
values `start + i * step`. -/
def np_arange (start stop step : ℚ) : List ℚ :=
  (List.range (⌈(stop - start) / step⌉).toNat).map (fun i => start + (i : ℚ) * step)

/-- The radius sequence `RAD_RANGE` of `Analyzer._create_panel_non_mf`. -/
def RAD_RANGE : List ℚ :=
  np_arange AnalyzerParams.RADIUS_MIN_DEFAULT
    (AnalyzerParams.RADIUS_MAX_DEFAULT + AnalyzerParams.RADIUS_STEP_DEFAULT)
    AnalyzerParams.RADIUS_STEP_DEFAULT

/-- The inner radius loop (Step R) of `Analyzer._create_panel_non_mf`:
`continue` is the recursive call on the remaining radii, `return` is `some`. -/
noncomputable def radius_loop (row : LineRow) (lvl : ℤ) (db_lvl : List RefRow)
    (price_tol_abs : ℚ) : List ℚ → Option Panel
  | [] => none
  | radius :: rest =>
    let db_cand := filter_dist_price db_lvl radius price_tol_abs row.base_price
    if db_cand.isEmpty then radius_loop row lvl db_lvl price_tol_abs rest
    else
      let panel := build_panel (calc_weights db_cand radius)
      if panel.is_empty then radius_loop row lvl db_lvl price_tol_abs rest
      else
        let panel2 := if lvl = 0 then filter_panel_l0 panel else panel
        if lvl = 0 ∧ panel2.is_empty then radius_loop row lvl db_lvl price_tol_abs rest
        else if check_panel_count panel2 lvl then some panel2
        else radius_loop row lvl db_lvl price_tol_abs rest

/-- The body of one `(level, radius)` iteration of the search, extracted for
stating theorems: `some panel` exactly when the combination is accepted. -/
noncomputable def try_radius (row : LineRow) (lvl : ℤ) (db_lvl : List RefRow)
    (price_tol_abs radius : ℚ) : Option Panel :=
  let db_cand := filter_dist_price db_lvl radius price_tol_abs row.base_price
  if db_cand.isEmpty then none
  else
    let panel := build_panel (calc_weights db_cand radius)
    if panel.is_empty then none
    else
      let panel2 := if lvl = 0 then filter_panel_l0 panel else panel
      if lvl = 0 ∧ panel2.is_empty then none
      else if check_panel_count panel2 lvl then some panel2
      else none

/-- The outer level loop (Step L) of `Analyzer._create_panel_non_mf`: a level
whose filtered set is empty is skipped without trying any radius. -/
noncomputable def level_loop (st : OOHSettings) (subjects : String → List String)
    (row : LineRow) (base_db_dist : List RefRow) (price_tol_abs : ℚ) :
    List ℤ → Option Panel
  | [] => none
  | lvl :: rest =>
    let db_lvl := apply_lvl_fltrs st subjects lvl row base_db_dist
    if db_lvl.isEmpty then level_loop st subjects row base_db_dist price_tol_abs rest
    else
      match radius_loop row lvl db_lvl price_tol_abs RAD_RANGE with
      | some p => some p
      | none => level_loop st subjects row base_db_dist price_tol_abs rest

/-- Source `Analyzer._create_panel_non_mf`: the cascading non-MF search over
levels 0, 1, 2 (the price tolerance is 50 % of the row's absolute price). -/
noncomputable def create_panel_non_mf (st : OOHSettings)
    (subjects : String → List String) (row : LineRow) (db_dist : List RefRow) : Panel :=
  let price_tol_abs := AnalyzerParams.BASE_PRICE_TOLERANCE * |row.base_price|
  let base_db := filter_subj st row db_dist
  if base_db.isEmpty then ⟨[]⟩
  else (level_loop st subjects row base_db price_tol_abs [0, 1, 2]).getD ⟨[]⟩

/-- One `(level, radius)` acceptance test of the full search, starting from
the un-filtered pool: used to state where the search stops. -/
noncomputable def try_combo (st : OOHSettings) (subjects : String → List String)
    (row : LineRow) (db_dist : List RefRow) (lvl : ℤ) (radius : ℚ) : Option Panel :=
  try_radius row lvl
    (apply_lvl_fltrs st subjects lvl row (filter_subj st row db_dist))
    (AnalyzerParams.BASE_PRICE_TOLERANCE * |row.base_price|) radius

/-- All `(level, radius)` combinations in visit order: radius is the
fastest-varying dimension, level the slowest. -/
def combos : List (ℤ × ℚ) :=
  ([0, 1, 2] : List ℤ).flatMap (fun lvl => RAD_RANGE.map (fun r => (lvl, r)))

/-- Source `Analyzer._create_panel_mf`: the single-pass MF path (format filter,
distance ≤ 0.1 km and 50 % price tolerance, digital/size filters, weights at
radius 0.1); its result is returned as-is and may be empty. -/
noncomputable def create_panel_mf (st : OOHSettings)
    (subjects : String → List String) (row : LineRow) (db_dist : List RefRow) : Panel :=
  let radius_mf := AnalyzerParams.RADIUS_MAX_MF
  let price_tol_abs := AnalyzerParams.BASE_PRICE_TOLERANCE * |row.base_price|
  let db_mf := filter_fmt_mf db_dist
  if db_mf.isEmpty then ⟨[]⟩
  else
    let db_cand := filter_dist_price db_mf radius_mf price_tol_abs row.base_price
    if db_cand.isEmpty then ⟨[]⟩
    else
      let db_cand2 := apply_lvl_fltrs st subjects (-1) row db_cand
      if db_cand2.isEmpty then ⟨[]⟩
      else build_panel (calc_weights db_cand2 radius_mf)

/-- Source `Analyzer._create_panel`: dispatch on the row's format. -/
noncomputable def create_panel (st : OOHSettings) (subjects : String → List String)
    (row : LineRow) (db_dist : List RefRow) : Panel :=
  if row.format = Formats.MF then create_panel_mf st subjects row db_dist
  else create_panel_non_mf st subjects row db_dist

/-- Steps 0–0.2 of `Analyzer.execute`: drop reference rows of the analysed
advertiser, rows with null or non-positive base price, and rows with rental
coefficient ≤ 0.3. -/
def pre_pass (db : List RefRow) (advertiser : String) : List RefRow :=
  ((db.filter (fun r => r.advertiser != advertiser)).filter
      (fun r => match r.base_price with
                | some p => decide (0 < p)
                | none => false)).filter
    (fun r => decide ((0.3 : ℚ) < r.rental_c))

/-! ### `Analyzer.execute` and its result frame -/

/-- Column dtypes of the result frame (only the two used by the appended
columns are distinguished). -/
inductive DType
  | float64
  | str
deriving DecidableEq

/-- The seven appended output columns with their polars dtypes. -/
def res_cols : List (String × DType) :=
  [("panel_base_price", DType.float64), ("advertisers", DType.str),
   ("operators", DType.str), ("constructions", DType.str),
   ("advertiser_shares", DType.str), ("operator_shares", DType.str),
   ("subject_name", DType.str)]

/-- The empty-input branch of `execute`: append each expected column (as a
typed null column) unless the input schema already has one of that name. -/
def add_missing_cols (cols extra : List (String × DType)) : List (String × DType) :=
  cols ++ extra.filter (fun c => cols.all (fun c₀ => c₀.1 != c.1))

/-- Source `df.with_columns` on the schema: replace a column of the same name, else
append. -/
def upsert_col (cols : List (String × DType)) (c : String × DType) :
    List (String × DType) :=
  if cols.any (fun c₀ => c₀.1 == c.1) then
    cols.map (fun c₀ => if c₀.1 == c.1 then c else c₀)
  else cols ++ [c]

/-- One result row: the input row plus the seven derived values (all null for
an empty panel). -/
structure OutRow where
  line : LineRow
  panel_base_price : Option ℝ
  advertisers : Option String
  operators : Option String
  constructions : Option String
  advertiser_shares : Option String
  operator_shares : Option String
  subject_name : Option String

/-- The result frame: schema plus data rows. -/
structure ExecResult where
  schema : List (String × DType)
  rows : List OutRow

/-- Source `Analyzer.execute`.  `in_cols` is the input frame's schema; `dist_col`
supplies the `_distance` column values computed per input row by
`Analyzer._calc_dist` (the `haversine` above).  An empty input produces an
empty result carrying the full expected output schema; otherwise the
pre-pass runs once and each row's panel is created and flattened. -/
noncomputable def execute (in_cols : List (String × DType)) (st : OOHSettings)
    (subjects : String → List String) (df : List LineRow) (db : List RefRow)
    (dist_col : LineRow → RefRow → ℚ) : ExecResult :=
  match df with
  | [] => ⟨add_missing_cols in_cols res_cols, []⟩
  | r₀ :: _ =>
    let advertiser := r₀.advertiser
    let db1 := pre_pass db advertiser
    let has_subj := in_cols.any (fun c => c.1 == "subject_code")
    let out_rows := df.map (fun r =>
      let pool := db1.map (fun p => { p with dist := dist_col r p })
      let panel := create_panel st subjects r pool
      { line := r
        panel_base_price :=
          if panel.is_empty then none else panel.calc_base_price st.s_method 0
        advertisers :=
          if panel.is_empty then none else some (", ".intercalate panel.get_advertisers)
        operators :=
          if panel.is_empty then none else some (", ".intercalate panel.get_operators)
        constructions :=
          if panel.is_empty then none else some (", ".intercalate panel.get_constructions)
        advertiser_shares :=
          if panel.is_empty then none else some panel.get_advertiser_shares
        operator_shares :=
          if panel.is_empty then none else some panel.get_operator_shares
        subject_name :=
          if has_subj then some (Geo.get_subject r.subject_code) else none })
    ⟨res_cols.foldl upsert_col in_cols, out_rows⟩

/-! ## Scenario inputs used by witnesses and counterexamples -/

/-- Default-method settings (`c_method = "По умолчанию"`). -/
def st_default : OOHSettings := ⟨CMethod.default, SMethod.mean⟩

/-- A subjects asset with no configured top operators. -/
def no_subjects : String → List String := fun _ => []

/-- A non-MF input row: no parseable size, non-digital, base price 100. -/
def scenario_row : LineRow :=
  { advertiser := "X", operator := "OP", format := "CB", size := none, side := none
    latitude := 0, longitude := 0, base_price := 100, is_digital := false
    subject_code := "RU-MOW", width := none, height := none }

/-- A reference candidate at the row's exact coordinates (`_distance = 0`,
which is what `haversine` yields for identical points), matching the row's
digital flag and price. -/
def scenario_cand (adv : String) : RefRow :=
  { advertiser := adv, operator := some "O2", format := "CB", size := none, side := none
    latitude := 0, longitude := 0, base_price := some 100, rental_c := 1
    is_digital := false, subject_code := "RU-MOW", width := none, height := none
    dist := 0 }

/-- Twelve fully identical candidates (same advertiser, same coordinates). -/
def db_identical : List RefRow := List.replicate 12 (scenario_cand "A")

/-- Twelve advertiser names, pairwise distinct. -/
def adv_names : List String :=
  ["A01", "A02", "A03", "A04", "A05", "A06", "A07", "A08", "A09", "A10", "A11", "A12"]

/-- Twelve candidates identical except for pairwise distinct advertisers. -/
def db_distinct : List RefRow := adv_names.map scenario_cand

/-- An MF-format input row. -/
def scenario_row_mf : LineRow := { scenario_row with format := "MF" }

/-- A one-candidate panel member with price `1/4` (not integral). -/
def cex_c : Construction :=
  { advertiser := "A", operator := none, format := "CB", size := none, side := none
    latitude := 0, longitude := 0, base_price := 1/4, weight := 1 }

/-- A one-candidate panel member with integral price 5 and weight 1. -/
def wit_c : Construction :=
  { advertiser := "A", operator := none, format := "CB", size := none, side := none
    latitude := 0, longitude := 0, base_price := 5, weight := 1 }

/-- A small inflation-rate table: Moscow "CB" rates for 2023 and 2024. -/
def infl_rates : List (String × List (String × List (ℤ × ℚ))) :=
  [("RU-MOW", [("CB", [(2023, 11/10), (2024, 6/5)])])]

/-- The panel member built from a reference row by
`_calc_weights` + `_build_panel` at a given radius. -/
noncomputable def cons_of (radius : ℚ) (r : RefRow) : Construction :=
  { advertiser := r.advertiser, operator := r.operator, format := r.format
    size := r.size, side := r.side, latitude := r.latitude, longitude := r.longitude
    base_price := r.base_price.getD 0, weight := calc_weight r.dist radius }

/-! ## Helper lemmas -/

theorem atan2_zero_one : Geo.atan2 0 1 = 0 := by
  unfold Geo.atan2
  rw [if_pos (by norm_num : (0:ℝ) < 1)]
  norm_num [Real.arctan_zero]

theorem calc_distance_self (lat lon : ℚ) (n : ℕ) (meters : Bool) :
    Geo.calc_distance lat lon lat lon n meters = 0 := by
  unfold Geo.calc_distance
  simp only [sub_self, zero_div, Real.sin_zero, ne_eq]
  rw [show (0:ℝ) ^ 2 +
      Real.cos ((lat:ℝ) * Real.pi / 180) * Real.cos ((lat:ℝ) * Real.pi / 180) *
        (0:ℝ) ^ 2 = 0 by ring]
  rw [Real.sqrt_zero]
  rw [show (1:ℝ) - 0 = 1 by norm_num, Real.sqrt_one, atan2_zero_one]
  cases meters <;> simp [rndTo_zero]

theorem is_close_self (lat lon radius : ℚ) (h : (0:ℝ) ≤ (radius : ℝ)) :
    Geo.is_close lat lon lat lon radius false := by
  unfold Geo.is_close
  rw [calc_distance_self]
  exact h

theorem haversine_self (lat lon : ℚ) : haversine lat lon lat lon = 0 := by
  unfold haversine
  simp only [sub_self, zero_div, Real.sin_zero]
  rw [show (0:ℝ) ^ 2 +
      Real.cos ((lat:ℝ) * Real.pi / 180) * Real.cos ((lat:ℝ) * Real.pi / 180) *
        (0:ℝ) ^ 2 = 0 by ring]
  rw [Real.sqrt_zero, Real.arcsin_zero]
  ring

theorem rnd_ratCast (q : ℚ) : rnd ((q : ℝ)) = rnd q := by
  have hfr : Int.fract ((q : ℝ)) = ((Int.fract q : ℚ) : ℝ) := by
    unfold Int.fract
    push_cast [Rat.floor_cast]
    ring
  have hround : round ((q : ℝ)) = round q := by
    rw [round_eq, round_eq,
      show ((q:ℝ) + 1/2) = (((q + 1/2 : ℚ) : ℝ)) by push_cast; ring, Rat.floor_cast]
  have hfloor : ⌊(q : ℝ)⌋ = ⌊q⌋ := Rat.floor_cast q
  unfold rnd
  rw [hfr, hfloor, hround]
  by_cases h : Int.fract q = 1/2
  · have h' : ((Int.fract q : ℚ) : ℝ) = 1/2 := by rw [h]; norm_num
    rw [if_pos h', if_pos h]
  · have h' : ¬ ((Int.fract q : ℚ) : ℝ) = 1/2 := by
      intro hc
      apply h
      rw [show (1/2 : ℝ) = ((1/2 : ℚ) : ℝ) from by norm_num] at hc
      exact Rat.cast_injective hc
    rw [if_neg h', if_neg h]

theorem rndTo_ratCast (n : ℕ) (q : ℚ) : rndTo n ((q : ℝ)) = ((rndTo n q : ℚ) : ℝ) := by
  unfold rndTo
  rw [show ((q:ℝ) * 10 ^ n) = (((q * 10 ^ n : ℚ) : ℝ)) by push_cast; ring, rnd_ratCast]
  push_cast
  ring

theorem RAD_RANGE_eq :
    RAD_RANGE = [0, 0.5, 1, 1.5, 2, 2.5, 3, 3.5, 4, 4.5, 5] := by
  unfold RAD_RANGE np_arange AnalyzerParams.RADIUS_MIN_DEFAULT
    AnalyzerParams.RADIUS_MAX_DEFAULT AnalyzerParams.RADIUS_STEP_DEFAULT
  rw [show ⌈((5.0 + 0.5 : ℚ) - 0.0) / 0.5⌉ = (11:ℤ) from by norm_num]
  rw [show ((11:ℤ)).toNat = 11 from rfl]
  rw [show List.range 11 = [0, 1, 2, 3, 4, 5, 6, 7, 8, 9, 10] from by decide]
  norm_num

/-! ### Deduplication lemmas -/

theorem is_duplicate_nil (c : Construction) : is_duplicate c [] = false := by
  simp [is_duplicate]

theorem is_duplicate_cons_self (c : Construction) (us : List Construction) :
    is_duplicate c (c :: us) = true := by
  unfold is_duplicate
  rw [if_pos rfl, if_pos]
  exact is_close_self c.latitude c.longitude 0.01
    (by exact_mod_cast (by norm_num : (0:ℚ) ≤ 0.01))

theorem is_duplicate_of_ne (c : Construction) (us : List Construction)
    (h : ∀ u ∈ us, c.advertiser ≠ u.advertiser) : is_duplicate c us = false := by
  induction us with
  | nil => exact is_duplicate_nil c
  | cons u us ih =>
    unfold is_duplicate
    rw [if_neg (h u (List.mem_cons_self u us))]
    exact ih (fun u' hu' => h u' (List.mem_cons_of_mem _ hu'))

theorem filter_panel_list_of_distinct :
    ∀ (l us : List Construction),
      (∀ c ∈ l, ∀ u ∈ us, c.advertiser ≠ u.advertiser) →
      l.Pairwise (fun a b => a.advertiser ≠ b.advertiser) →
      filter_panel_list us l = us ++ l := by
  intro l
  induction l with
  | nil => intro us _ _; simp [filter_panel_list]
  | cons c cs ih =>
    intro us h hp
    have hd : is_duplicate c us = false :=
      is_duplicate_of_ne c us (fun u hu => h c (List.mem_cons_self c cs) u hu)
    unfold filter_panel_list
    rw [hd]
    simp only [Bool.false_eq_true, if_false]
    rw [ih (us ++ [c]) ?_ (List.pairwise_cons.mp hp).2]
    · simp
    · intro c' hc' u hu
      rcases List.mem_append.mp hu with hu | hu
      · exact h c' (List.mem_cons_of_mem _ hc') u hu
      · rcases List.mem_singleton.mp hu with rfl
        exact ((List.pairwise_cons.mp hp).1 c' hc').symm

theorem filter_panel_list_one_replicate (c : Construction) :
    ∀ k, filter_panel_list [c] (List.replicate k c) = [c] := by
  intro k
  induction k with
  | zero => simp [filter_panel_list]
  | succ k ih =>
    rw [List.replicate_succ]
    unfold filter_panel_list
    rw [is_duplicate_cons_self]
    simpa using ih

theorem filter_panel_list_replicate_succ (c : Construction) (k : ℕ) :
    filter_panel_list [] (List.replicate (k + 1) c) = [c] := by
  rw [List.replicate_succ]
  unfold filter_panel_list
  rw [is_duplicate_nil]
  simp only [Bool.false_eq_true, if_false, List.nil_append]
  exact filter_panel_list_one_replicate c k

/-! ### Loop-structure lemmas: the search is a first-success scan -/

theorem try_radius_nil_db (row : LineRow) (lvl : ℤ) (tol radius : ℚ) :
    try_radius row lvl [] tol radius = none := by
  simp [try_radius, filter_dist_price]

theorem radius_loop_eq_findSome (row : LineRow) (lvl : ℤ) (db_lvl : List RefRow)
    (tol : ℚ) : ∀ rs, radius_loop row lvl db_lvl tol rs =
      rs.findSome? (try_radius row lvl db_lvl tol) := by
  intro rs
  induction rs with
  | nil => rfl
  | cons r rest ih =>
    simp only [radius_loop, try_radius, List.findSome?_cons]
    split_ifs <;> simp [ih]

theorem level_loop_eq (st : OOHSettings) (subjects : String → List String)
    (row : LineRow) (base : List RefRow) (tol : ℚ) :
    ∀ ls, level_loop st subjects row base tol ls =
      ls.findSome? (fun lvl =>
        RAD_RANGE.findSome?
          (try_radius row lvl (apply_lvl_fltrs st subjects lvl row base) tol)) := by
  intro ls
  induction ls with
  | nil => rfl
  | cons lvl rest ih =>
    simp only [level_loop, List.findSome?_cons]
    by_cases hE : (apply_lvl_fltrs st subjects lvl row base).isEmpty
    · rw [if_pos hE]
      have hnil : apply_lvl_fltrs st subjects lvl row base = [] := by
        simpa [List.isEmpty_iff] using hE
      have hnone : RAD_RANGE.findSome?
          (try_radius row lvl (apply_lvl_fltrs st subjects lvl row base) tol) = none := by
        rw [hnil, List.findSome?_eq_none_iff]
        intro r _
        exact try_radius_nil_db row lvl tol r
      rw [hnone]
      simpa using ih
    · rw [if_neg hE, radius_loop_eq_findSome]
      cases hF : RAD_RANGE.findSome?
          (try_radius row lvl (apply_lvl_fltrs st subjects lvl row base) tol) with
      | none => simpa using ih
      | some p => simp

theorem findSome?_flatMap {α β γ : Type} (l : List α) (f : α → List β) (g : β → Option γ) :
    (l.flatMap f).findSome? g = l.findSome? (fun a => (f a).findSome? g) := by
  induction l with
  | nil => rfl
  | cons a l ih =>
    rw [List.flatMap_cons, List.findSome?_append, List.findSome?_cons]
    cases hA : (f a).findSome? g with
    | some b => simp [hA, Option.or]
    | none => simp [hA, Option.or, ih]

theorem apply_lvl_fltrs_nil (st : OOHSettings) (subjects : String → List String)
    (lvl : ℤ) (row : LineRow) : apply_lvl_fltrs st subjects lvl row [] = [] := by
  simp [apply_lvl_fltrs, filter_digital]

/-- The master equation: the cascading non-MF search equals the first-success
scan of `try_combo` over all `(level, radius)` combinations in visit order
(radius fastest, level slowest), with the empty panel as the default. -/
theorem create_panel_non_mf_eq (st : OOHSettings) (subjects : String → List String)
    (row : LineRow) (db_dist : List RefRow) :
    create_panel_non_mf st subjects row db_dist =
      (combos.findSome? (fun lr => try_combo st subjects row db_dist lr.1 lr.2)).getD ⟨[]⟩ := by
  have hcombos : combos.findSome? (fun lr => try_combo st subjects row db_dist lr.1 lr.2) =
      ([0, 1, 2] : List ℤ).findSome? (fun lvl =>
        RAD_RANGE.findSome?
          (try_radius row lvl (apply_lvl_fltrs st subjects lvl row (filter_subj st row db_dist))
            (AnalyzerParams.BASE_PRICE_TOLERANCE * |row.base_price|))) := by
    unfold combos
    rw [findSome?_flatMap]
    congr 1
    funext lvl
    rw [List.findSome?_map]
    rfl
  unfold create_panel_non_mf
  by_cases hb : (filter_subj st row db_dist).isEmpty
  · rw [if_pos hb]
    have hnil : filter_subj st row db_dist = [] := by simpa [List.isEmpty_iff] using hb
    rw [hcombos]
    have : ([0, 1, 2] : List ℤ).findSome? (fun lvl =>
        RAD_RANGE.findSome?
          (try_radius row lvl (apply_lvl_fltrs st subjects lvl row (filter_subj st row db_dist))
            (AnalyzerParams.BASE_PRICE_TOLERANCE * |row.base_price|))) = none := by
      rw [List.findSome?_eq_none_iff]
      intro lvl _
      rw [hnil, apply_lvl_fltrs_nil, List.findSome?_eq_none_iff]
      intro r _
      exact try_radius_nil_db row lvl _ r
    rw [this]
    rfl
  · rw [if_neg hb, level_loop_eq, hcombos]

theorem try_radius_eq_some {row : LineRow} {lvl : ℤ} {db_lvl : List RefRow}
    {tol radius : ℚ} {p : Panel}
    (h : try_radius row lvl db_lvl tol radius = some p) :
    check_panel_count p lvl = true := by
  simp only [try_radius] at h
  split_ifs at h <;> first
    | exact Option.noConfusion h
    | (injection h with h2; rw [← h2]; assumption)

theorem check_panel_count_ge {p : Panel} {lvl : ℤ}
    (h : check_panel_count p lvl = true) :
    (if lvl = 0 then AnalyzerParams.REQUIRED_COUNT_MIN
     else AnalyzerParams.REQUIRED_COUNT_DEFAULT) ≤ p.size := by
  unfold check_panel_count at h
  exact of_decide_eq_true h

/-! ## Claim theorems -/

/-- C1: for every non-MF input row, if the cascading search returns a
non-empty panel, it was accepted at some visited `(level, radius)`
combination, and its size at that moment (the returned panel itself: nothing
is altered after acceptance) is at least the level's required minimum — at
least `REQUIRED_COUNT_MIN = 3` at level 0 and at least
`REQUIRED_COUNT_DEFAULT = 10` at levels 1 and 2; in particular the engine
never returns a non-empty non-MF panel with fewer than 3 members. -/
theorem claim_C1_nonmf_panel_minimum (st : OOHSettings)
    (subjects : String → List String) (row : LineRow) (db_dist : List RefRow)
    (h : (create_panel_non_mf st subjects row db_dist).constructions ≠ []) :
    ∃ lvl radius, (lvl, radius) ∈ combos ∧
      try_combo st subjects row db_dist lvl radius =
        some (create_panel_non_mf st subjects row db_dist) ∧
      ((lvl = 0 ∧ AnalyzerParams.REQUIRED_COUNT_MIN ≤
          (create_panel_non_mf st subjects row db_dist).size) ∨
        (lvl ≠ 0 ∧ AnalyzerParams.REQUIRED_COUNT_DEFAULT ≤
          (create_panel_non_mf st subjects row db_dist).size)) ∧
      AnalyzerParams.REQUIRED_COUNT_MIN ≤
        (create_panel_non_mf st subjects row db_dist).size := by
  have hm := create_panel_non_mf_eq st subjects row db_dist
  cases hF : combos.findSome? (fun lr => try_combo st subjects row db_dist lr.1 lr.2) with
  | none =>
    rw [hF] at hm
    exact absurd (by rw [hm]; rfl) h
  | some q =>
    rw [hF] at hm
    simp only [Option.getD_some] at hm
    obtain ⟨lr, hmem, hlr⟩ := List.exists_of_findSome?_eq_some hF
    have hcheck : check_panel_count q lr.1 = true := by
      unfold try_combo at hlr
      exact try_radius_eq_some hlr
    have hge := check_panel_count_ge hcheck
    refine ⟨lr.1, lr.2, by simpa using hmem, by rw [hm]; simpa using hlr, ?_, ?_⟩
    · by_cases h0 : lr.1 = 0
      · left
        refine ⟨h0, ?_⟩
        rw [hm]
        simpa [h0] using hge
      · right
        refine ⟨h0, ?_⟩
        rw [hm]
        simpa [h0] using hge
    · rw [hm]
      by_cases h0 : lr.1 = 0
      · simpa [h0] using hge
      · have : AnalyzerParams.REQUIRED_COUNT_DEFAULT ≤ q.size := by simpa [h0] using hge
        unfold AnalyzerParams.REQUIRED_COUNT_MIN AnalyzerParams.REQUIRED_COUNT_DEFAULT at *
        omega

/-! ### Scenario evaluation lemmas -/

theorem build_panel_calc_weights (l : List RefRow) (radius : ℚ) :
    build_panel (calc_weights l radius) = ⟨l.map (cons_of radius)⟩ := by
  cases l with
  | nil => simp [calc_weights, build_panel]
  | cons a l =>
    unfold build_panel calc_weights
    rw [if_neg (by simp)]
    rw [List.map_map]
    rfl

theorem mem_db_identical {r : RefRow} (h : r ∈ db_identical) :
    r = scenario_cand "A" :=
  List.eq_of_mem_replicate h

theorem mem_db_distinct {r : RefRow} (h : r ∈ db_distinct) :
    ∃ adv, r = scenario_cand adv := by
  obtain ⟨adv, _, rfl⟩ := List.mem_map.mp h
  exact ⟨adv, rfl⟩

theorem filter_subj_default (row : LineRow) (db : List RefRow) :
    filter_subj st_default row db = db := by
  unfold filter_subj
  rw [if_neg]
  intro hc
  exact absurd hc (by decide)

theorem filter_dist_price_scenario (l : List RefRow) (radius : ℚ) (hr : 0 ≤ radius)
    (hl : ∀ r ∈ l, ∃ adv, r = scenario_cand adv) :
    filter_dist_price l radius
      (AnalyzerParams.BASE_PRICE_TOLERANCE * |scenario_row.base_price|)
      scenario_row.base_price = l := by
  unfold filter_dist_price
  rw [List.filter_eq_self]
  intro a ha
  obtain ⟨adv, rfl⟩ := hl a ha
  rw [Bool.and_eq_true]
  constructor
  · rw [decide_eq_true_eq]
    exact hr
  · show (match (scenario_cand adv).base_price with
      | some p => decide (|p - scenario_row.base_price| ≤
          AnalyzerParams.BASE_PRICE_TOLERANCE * |scenario_row.base_price|)
      | none => false) = true
    norm_num [scenario_cand, scenario_row, AnalyzerParams.BASE_PRICE_TOLERANCE]

theorem apply_lvl_fltrs_scenario (lvl : ℤ) (l : List RefRow)
    (hne : l.isEmpty = false)
    (hl : ∀ r ∈ l, ∃ adv, r = scenario_cand adv) :
    apply_lvl_fltrs st_default no_subjects lvl scenario_row l = l := by
  have h1 : filter_digital scenario_row l = l := by
    unfold filter_digital
    rw [List.filter_eq_self]
    intro a ha
    obtain ⟨adv, rfl⟩ := hl a ha
    simp [scenario_cand, scenario_row]
  have h2 : filter_size scenario_row l = l := by
    unfold filter_size
    rfl
  unfold apply_lvl_fltrs
  simp only [h1, h2, hne, Bool.false_eq_true, if_false]
  rw [if_neg]
  intro hc
  exact absurd hc.1 (by decide)

theorem try_combo_scenario_reduce (lvl : ℤ) (l : List RefRow) (radius : ℚ)
    (hr : 0 ≤ radius) (hne : l.isEmpty = false)
    (hl : ∀ r ∈ l, ∃ adv, r = scenario_cand adv) :
    try_combo st_default no_subjects scenario_row l lvl radius =
      (if lvl = 0 ∧ (filter_panel_l0 ⟨l.map (cons_of radius)⟩).is_empty = true then none
       else if check_panel_count
           (if lvl = 0 then filter_panel_l0 ⟨l.map (cons_of radius)⟩
            else ⟨l.map (cons_of radius)⟩) lvl = true then
         some (if lvl = 0 then filter_panel_l0 ⟨l.map (cons_of radius)⟩
               else ⟨l.map (cons_of radius)⟩)
       else none) := by
  have hpe : (⟨l.map (cons_of radius)⟩ : Panel).is_empty = false := by
    cases l with
    | nil => simp at hne
    | cons a l => simp [Panel.is_empty]
  unfold try_combo
  rw [filter_subj_default, apply_lvl_fltrs_scenario lvl l hne hl]
  simp only [try_radius]
  rw [filter_dist_price_scenario l radius hr hl, build_panel_calc_weights]
  simp only [hne, hpe, Bool.false_eq_true, if_false]
  by_cases h0 : lvl = 0
  · simp only [h0, if_true, ite_true]
  · simp only [h0, if_false, ite_false, false_and]

theorem filter_panel_l0_identical (radius : ℚ) :
    filter_panel_l0 ⟨db_identical.map (cons_of radius)⟩ =
      ⟨[cons_of radius (scenario_cand "A")]⟩ := by
  have hmap : db_identical.map (cons_of radius) =
      List.replicate 12 (cons_of radius (scenario_cand "A")) := by
    rw [db_identical, List.map_replicate]
  unfold filter_panel_l0
  rw [if_neg (by rw [hmap]; simp [Panel.is_empty])]
  unfold Panel.filter_panel
  rw [hmap]
  exact congrArg Panel.mk (filter_panel_list_replicate_succ _ 11)

theorem try_combo_identical_l0 (radius : ℚ) (hr : 0 ≤ radius) :
    try_combo st_default no_subjects scenario_row db_identical 0 radius = none := by
  rw [try_combo_scenario_reduce 0 db_identical radius hr (by rw [db_identical]; rfl)
    (fun r h => ⟨"A", mem_db_identical h⟩)]
  rw [if_neg]
  · rw [if_neg]
    rw [if_pos rfl, filter_panel_l0_identical]
    simp [check_panel_count, Panel.size, AnalyzerParams.REQUIRED_COUNT_MIN]
  · intro hc
    rw [filter_panel_l0_identical] at hc
    simp [Panel.is_empty] at hc

theorem try_combo_identical_l1 :
    try_combo st_default no_subjects scenario_row db_identical 1 0 =
      some ⟨List.replicate 12 (cons_of 0 (scenario_cand "A"))⟩ := by
  rw [try_combo_scenario_reduce 1 db_identical 0 le_rfl (by rw [db_identical]; rfl)
    (fun r h => ⟨"A", mem_db_identical h⟩)]
  rw [if_neg (by intro hc; exact absurd hc.1 (by decide))]
  rw [if_pos]
  · rw [if_neg (by decide)]
    rw [show db_identical.map (cons_of 0) =
      List.replicate 12 (cons_of 0 (scenario_cand "A")) from by
        rw [db_identical, List.map_replicate]]
  · rw [if_neg (by decide)]
    simp [check_panel_count, Panel.size, AnalyzerParams.REQUIRED_COUNT_DEFAULT,
      db_identical]

theorem filter_panel_l0_distinct :
    filter_panel_l0 ⟨db_distinct.map (cons_of 0)⟩ = ⟨db_distinct.map (cons_of 0)⟩ := by
  unfold filter_panel_l0
  rw [if_neg (by simp [Panel.is_empty, db_distinct, adv_names])]
  unfold Panel.filter_panel
  refine congrArg Panel.mk ?_
  rw [filter_panel_list_of_distinct (db_distinct.map (cons_of 0)) []
    (by intro c _ u hu; simp at hu) ?_]
  · rfl
  · rw [db_distinct, List.map_map, List.pairwise_map]
    change adv_names.Pairwise (fun a b => a ≠ b)
    decide

theorem try_combo_distinct_l0 :
    try_combo st_default no_subjects scenario_row db_distinct 0 0 =
      some ⟨db_distinct.map (cons_of 0)⟩ := by
  rw [try_combo_scenario_reduce 0 db_distinct 0 le_rfl (by rw [db_distinct]; rfl)
    (fun r h => mem_db_distinct h)]
  rw [if_neg]
  · rw [if_pos]
    · rw [if_pos rfl, filter_panel_l0_distinct]
    · rw [if_pos rfl, filter_panel_l0_distinct]
      simp [check_panel_count, Panel.size, AnalyzerParams.REQUIRED_COUNT_MIN,
        db_distinct, adv_names]
  · intro hc
    rw [filter_panel_l0_distinct] at hc
    simp [Panel.is_empty, db_distinct, adv_names] at hc

theorem rad_range_nonneg : ∀ r ∈ RAD_RANGE, (0:ℚ) ≤ r := by
  rw [RAD_RANGE_eq]
  intro r hr
  simp only [List.mem_cons, List.not_mem_nil, or_false] at hr
  rcases hr with rfl | rfl | rfl | rfl | rfl | rfl | rfl | rfl | rfl | rfl | rfl <;> norm_num

theorem combos_eq :
    combos = (RAD_RANGE.map (fun r => ((0:ℤ), r))) ++
      ((RAD_RANGE.map (fun r => ((1:ℤ), r))) ++
        ((RAD_RANGE.map (fun r => ((2:ℤ), r))) ++ [])) := by
  simp [combos, List.flatMap_cons, List.flatMap_nil]

theorem create_panel_identical_eq :
    create_panel_non_mf st_default no_subjects scenario_row db_identical =
      ⟨List.replicate 12 (cons_of 0 (scenario_cand "A"))⟩ := by
  have hnone : (RAD_RANGE.map (fun r => ((0:ℤ), r))).findSome?
      (fun lr => try_combo st_default no_subjects scenario_row db_identical lr.1 lr.2) =
        none := by
    rw [List.findSome?_eq_none_iff]
    intro lr hlr
    obtain ⟨r, hrR, rfl⟩ := List.mem_map.mp hlr
    exact try_combo_identical_l0 r (rad_range_nonneg r hrR)
  rw [create_panel_non_mf_eq, combos_eq, List.findSome?_append, hnone, Option.none_or,
    List.findSome?_append]
  rw [show RAD_RANGE.map (fun r => ((1:ℤ), r)) =
    ((1:ℤ), (0:ℚ)) :: (RAD_RANGE.tail.map (fun r => ((1:ℤ), r))) from by
      rw [RAD_RANGE_eq]; rfl]
  rw [List.findSome?_cons]
  rw [try_combo_identical_l1]
  rfl

theorem create_panel_distinct_eq :
    create_panel_non_mf st_default no_subjects scenario_row db_distinct =
      ⟨db_distinct.map (cons_of 0)⟩ := by
  rw [create_panel_non_mf_eq, combos_eq]
  rw [show RAD_RANGE.map (fun r => ((0:ℤ), r)) =
    ((0:ℤ), (0:ℚ)) :: (RAD_RANGE.tail.map (fun r => ((0:ℤ), r))) from by
      rw [RAD_RANGE_eq]; rfl]
  rw [List.cons_append, List.findSome?_cons]
  rw [try_combo_distinct_l0]
  rfl

/-- C2: the cascading non-MF search visits `(level, radius)` combinations
with radius the fastest-varying dimension and level the slowest (`combos` is
`[(0, 0.0), (0, 0.5), …, (0, 5.0), (1, 0.0), …, (2, 5.0)]`), and its result
is exactly the first combination whose acceptance test (`try_combo`)
succeeds — `List.findSome?` returns the first `some` in list order — so the
search never stops at a combination earlier than the first sufficient one
and returns immediately at it; when the only sufficient combination is
`(2, 4.5)`, every earlier combination therefore yields `none` and the search
reaches it. -/
theorem claim_C2_first_success_order (st : OOHSettings)
    (subjects : String → List String) (row : LineRow) (db_dist : List RefRow) :
    create_panel_non_mf st subjects row db_dist =
      (combos.findSome? (fun lr => try_combo st subjects row db_dist lr.1 lr.2)).getD ⟨[]⟩ ∧
    combos = ([0, 1, 2] : List ℤ).flatMap (fun lvl => RAD_RANGE.map (fun r => (lvl, r))) :=
  ⟨create_panel_non_mf_eq st subjects row db_dist, rfl⟩

/-- C1 witness: on a pool of 12 candidates at distance 0 with pairwise
distinct advertisers the search returns a non-empty panel, and the accepted
combination satisfies the size minimum. -/
theorem claim_C1_nonmf_panel_minimum_witness :
    ∃ lvl radius, (lvl, radius) ∈ combos ∧
      try_combo st_default no_subjects scenario_row db_distinct lvl radius =
        some (create_panel_non_mf st_default no_subjects scenario_row db_distinct) ∧
      ((lvl = 0 ∧ AnalyzerParams.REQUIRED_COUNT_MIN ≤
          (create_panel_non_mf st_default no_subjects scenario_row db_distinct).size) ∨
        (lvl ≠ 0 ∧ AnalyzerParams.REQUIRED_COUNT_DEFAULT ≤
          (create_panel_non_mf st_default no_subjects scenario_row db_distinct).size)) ∧
      AnalyzerParams.REQUIRED_COUNT_MIN ≤
        (create_panel_non_mf st_default no_subjects scenario_row db_distinct).size :=
  claim_C1_nonmf_panel_minimum st_default no_subjects scenario_row db_distinct
    (by rw [create_panel_distinct_eq]; simp [db_distinct, adv_names])

/-- C3 (counterexample): the reference pool `db_identical` consists of 12
identical non-MF candidates at distance 0 km from the row, matching its
digital flag and the 50 % price tolerance, under pricing method "default" —
yet no level-0 `(0, radius)` combination is ever accepted (proximity
deduplication collapses the 12 identical members to one, below the level-0
minimum of 3), so the engine does not return a level-0 panel at radius 0.0 as
the claim states: the 12-member panel it returns is accepted at level 1,
radius 0.0. -/
theorem claim_C3_counterexample :
    (RAD_RANGE.findSome?
      (fun r => try_combo st_default no_subjects scenario_row db_identical 0 r)) = none ∧
    (create_panel_non_mf st_default no_subjects scenario_row db_identical).size = 12 ∧
    try_combo st_default no_subjects scenario_row db_identical 1 0 =
      some (create_panel_non_mf st_default no_subjects scenario_row db_identical) := by
  refine ⟨?_, ?_, ?_⟩
  · rw [List.findSome?_eq_none_iff]
    intro r hr
    exact try_combo_identical_l0 r (rad_range_nonneg r hr)
  · rw [create_panel_identical_eq]
    simp [Panel.size]
  · rw [create_panel_identical_eq, try_combo_identical_l1]

/-- C3 (amended): on 12 candidates at distance 0 km matching the digital
flag and price tolerance whose advertisers are pairwise distinct (so
proximity deduplication removes none), the engine accepts at level 0,
radius 0.0, returning all 12 members; when the 12 are instead fully
identical, deduplication collapses the level-0 panel below the minimum and
the engine returns the 12 members at level 1, radius 0.0 (that half is
`claim_C3_counterexample`). -/
theorem claim_C3_amended :
    try_combo st_default no_subjects scenario_row db_distinct 0 0 =
      some (create_panel_non_mf st_default no_subjects scenario_row db_distinct) ∧
    (create_panel_non_mf st_default no_subjects scenario_row db_distinct).size = 12 ∧
    db_distinct.length = 12 := by
  refine ⟨?_, ?_, rfl⟩
  · rw [create_panel_distinct_eq, try_combo_distinct_l0]
  · rw [create_panel_distinct_eq]
    simp [Panel.size, db_distinct, adv_names]

/-- C8: when the reference pool contains no rows of format "MF", every
MF-format input row produces an empty panel: the MF path is a single pass
that starts by filtering the pool to format "MF" and returns the empty panel
as soon as that filter (or any later one) leaves nothing, with no
relaxation. -/
theorem claim_C8_mf_empty_pool (st : OOHSettings) (subjects : String → List String)
    (row : LineRow) (db_dist : List RefRow)
    (hrow : row.format = Formats.MF) (hdb : ∀ r ∈ db_dist, r.format ≠ Formats.MF) :
    create_panel st subjects row db_dist = ⟨[]⟩ := by
  unfold create_panel
  rw [if_pos hrow]
  have hnil : filter_fmt_mf db_dist = [] := by
    unfold filter_fmt_mf
    rw [List.filter_eq_nil_iff]
    intro a ha
    simp only [beq_iff_eq]
    exact hdb a ha
  simp only [create_panel_mf]
  rw [hnil]
  rfl

/-- C4 (amended): for nonnegative distance and radius — the engine's actual
call domain, with haversine distances and radii from the nonnegative radius
sequences — `calc_distance_c` lies in `[0, 1]`, equals exactly `1.0` whenever
`r ≤ 0.1`, is non-increasing in the distance for fixed `r > 0.1`, and outside
the small-radius case equals `exp (-(d / r))` clamped to `≥ 0` and rounded to
4 decimals (the clamp never fires, since `exp` is positive; forcing
non-finite floats to 0 concerns only the vectorized weight path and cannot
occur in exact arithmetic). -/
theorem claim_C4_distance_coefficient_amended (d r : ℝ) (hd : 0 ≤ d) (hr : 0 ≤ r) :
    (0 ≤ Coefficient.calc_distance_c d r 1 4 ∧ Coefficient.calc_distance_c d r 1 4 ≤ 1) ∧
    (r ≤ 0.1 → Coefficient.calc_distance_c d r 1 4 = 1) ∧
    (0.1 < r → ∀ d₂, d ≤ d₂ →
      Coefficient.calc_distance_c d₂ r 1 4 ≤ Coefficient.calc_distance_c d r 1 4) ∧
    (0.1 < r → Coefficient.calc_distance_c d r 1 4 =
      rndTo 4 (max 0 (Real.exp (-(1:ℝ) * (d / r))))) := by
  have hval : ∀ d₀ : ℝ, 0.1 < r → Coefficient.calc_distance_c d₀ r 1 4 =
      rndTo 4 (Real.exp (-(1:ℝ) * (d₀ / r))) := by
    intro d₀ hbig
    unfold Coefficient.calc_distance_c
    rw [if_neg (fun hc => absurd hc.2 (not_le.mpr hbig))]
  refine ⟨?_, ?_, ?_, ?_⟩
  · by_cases hbig : 0.1 < r
    · rw [hval d hbig]
      have hexp0 : (0:ℝ) ≤ Real.exp (-(1:ℝ) * (d / r)) := (Real.exp_pos _).le
      have hexp1 : Real.exp (-(1:ℝ) * (d / r)) ≤ 1 := by
        rw [Real.exp_le_one_iff]
        have hrpos : (0:ℝ) < r := lt_trans (by norm_num) hbig
        have : 0 ≤ d / r := div_nonneg hd hrpos.le
        nlinarith
      exact ⟨rndTo_nonneg hexp0, rndTo_le_one hexp1⟩
    · unfold Coefficient.calc_distance_c
      rw [if_pos ⟨hr, not_lt.mp hbig⟩]
      norm_num
  · intro hsmall
    unfold Coefficient.calc_distance_c
    rw [if_pos ⟨hr, hsmall⟩]
    norm_num
  · intro hbig d₂ hd₂
    rw [hval d hbig, hval d₂ hbig]
    apply rndTo_mono
    apply Real.exp_le_exp.mpr
    have hrpos : (0:ℝ) < r := lt_trans (by norm_num) hbig
    have hdiv : d / r ≤ d₂ / r := (div_le_div_right hrpos).mpr hd₂
    linarith
  · intro hbig
    rw [hval d hbig]
    congr 1
    rw [max_eq_right (Real.exp_pos _).le]

/-- C4 (counterexample): at distance 1 and radius `-1` the guard
`0 ≤ radius ≤ 0.1` fails, so `calc_distance_c` computes
`round(exp(1), 4) = 2.7183`, which is greater than 1 and not equal to 1.0
even though `r = -1 ≤ 0.1` — refuting "∈ [0,1] for every d and r" and
"exactly 1.0 whenever r ≤ 0.1" as universally quantified. -/
theorem claim_C4_counterexample :
    Coefficient.calc_distance_c 1 (-1) 1 4 = 27183 / 10000 ∧
    ¬ Coefficient.calc_distance_c 1 (-1) 1 4 ≤ 1 ∧
    (-1 : ℝ) ≤ 0.1 ∧ Coefficient.calc_distance_c 1 (-1) 1 4 ≠ 1 := by
  have hlo := Real.exp_one_gt_d9
  have hhi := Real.exp_one_lt_d9
  have harg : -(1:ℝ) * ((1:ℝ) / (-1)) = 1 := by norm_num
  have hveq : Coefficient.calc_distance_c 1 (-1) 1 4 = rndTo 4 (Real.exp 1) := by
    unfold Coefficient.calc_distance_c
    rw [if_neg (fun hc => absurd hc.1 (by norm_num))]
    rw [harg]
  have hfl : ⌊Real.exp 1 * 10 ^ 4⌋ = 27182 := by
    apply Int.floor_eq_iff.mpr
    constructor
    · push_cast
      nlinarith
    · push_cast
      nlinarith
  have hfr : Int.fract (Real.exp 1 * 10 ^ 4) ≠ 1 / 2 := by
    unfold Int.fract
    rw [hfl]
    intro hc
    have : Real.exp 1 * 10 ^ 4 = 27182 + 1/2 := by
      push_cast at hc ⊢
      linarith
    nlinarith
  have hrnd : rnd (Real.exp 1 * 10 ^ 4) = 27183 := by
    unfold rnd
    rw [if_neg hfr, round_eq]
    apply Int.floor_eq_iff.mpr
    constructor
    · push_cast
      nlinarith
    · push_cast
      nlinarith
  have hv : Coefficient.calc_distance_c 1 (-1) 1 4 = 27183 / 10000 := by
    rw [hveq]
    unfold rndTo
    rw [hrnd]
    norm_num
  refine ⟨hv, ?_, by norm_num, ?_⟩
  · rw [hv]
    norm_num
  · rw [hv]
    norm_num

/-- C4 witness: the amended theorem applied at `d = 0`, `r = 1`. -/
theorem claim_C4_distance_coefficient_witness :
    (0 ≤ Coefficient.calc_distance_c 0 1 1 4 ∧ Coefficient.calc_distance_c 0 1 1 4 ≤ 1) ∧
    ((1:ℝ) ≤ 0.1 → Coefficient.calc_distance_c 0 1 1 4 = 1) ∧
    ((0.1:ℝ) < 1 → ∀ d₂, (0:ℝ) ≤ d₂ →
      Coefficient.calc_distance_c d₂ 1 1 4 ≤ Coefficient.calc_distance_c 0 1 1 4) ∧
    ((0.1:ℝ) < 1 → Coefficient.calc_distance_c 0 1 1 4 =
      rndTo 4 (max 0 (Real.exp (-(1:ℝ) * (0 / 1))))) :=
  claim_C4_distance_coefficient_amended 0 1 le_rfl (by norm_num)

/-- C5 (amended): `calc_base_price` on an empty panel returns `0.0` for each
of the four methods; an unknown method errors; and on a one-candidate panel
every method returns the candidate's base price rounded to `n` decimals
(`round(price, n)`, engine default `n = 0` — so the raw price is returned
only when it already has at most `n` decimals), where `weighted_mean`
additionally requires the candidate's weight to be nonzero (`np.average`
raises on zero total weight). -/
theorem claim_C5_base_price_amended (c : Construction) (n : ℕ) (method : String) :
    ((method = SMethod.mean ∨ method = SMethod.weighted_mean ∨
        method = SMethod.trimmed_mean ∨ method = SMethod.median) →
      Panel.calc_base_price ⟨[]⟩ method n = some 0) ∧
    (¬ (method = SMethod.mean ∨ method = SMethod.weighted_mean ∨
        method = SMethod.trimmed_mean ∨ method = SMethod.median) →
      ∀ p : Panel, Panel.calc_base_price p method n = none) ∧
    (c.weight ≠ 0 →
      (method = SMethod.mean ∨ method = SMethod.weighted_mean ∨
        method = SMethod.trimmed_mean ∨ method = SMethod.median) →
      Panel.calc_base_price ⟨[c]⟩ method n = some (rndTo n ((c.base_price : ℚ) : ℝ))) := by
  have hempty : (⟨[]⟩ : Panel).is_empty = true := rfl
  have hone : (⟨[c]⟩ : Panel).is_empty = false := rfl
  refine ⟨?_, ?_, ?_⟩
  · rintro (rfl | rfl | rfl | rfl)
    · unfold Panel.calc_base_price Panel.calc_mean_price
      rw [if_pos rfl, if_pos hempty]
      norm_num [rndTo_zero]
    · unfold Panel.calc_base_price Panel.calc_weighted_mean_price
      rw [if_neg (by decide), if_pos rfl, if_pos hempty]
      simp [rndTo_zero]
    · unfold Panel.calc_base_price Panel.calc_trimmed_mean_price
      rw [if_neg (by decide), if_neg (by decide), if_pos rfl, if_pos hempty]
      norm_num [rndTo_zero]
    · unfold Panel.calc_base_price Panel.calc_median_price
      rw [if_neg (by decide), if_neg (by decide), if_neg (by decide), if_pos rfl,
        if_pos hempty]
      norm_num [rndTo_zero]
  · intro hm p
    unfold Panel.calc_base_price
    rw [if_neg (fun hc => hm (Or.inl hc)),
      if_neg (fun hc => hm (Or.inr (Or.inl hc))),
      if_neg (fun hc => hm (Or.inr (Or.inr (Or.inl hc)))),
      if_neg (fun hc => hm (Or.inr (Or.inr (Or.inr hc))))]
  · rintro hw (rfl | rfl | rfl | rfl)
    · unfold Panel.calc_base_price Panel.calc_mean_price
      rw [if_pos rfl, if_neg (by rw [hone]; simp)]
      simp
    · unfold Panel.calc_base_price Panel.calc_weighted_mean_price
      rw [if_neg (by decide), if_pos rfl, if_neg (by rw [hone]; simp)]
      have hsum : ((⟨[c]⟩ : Panel).constructions.map (·.weight)).sum = c.weight := by
        simp
      rw [if_neg (by rw [hsum]; exact hw)]
      have : ((⟨[c]⟩ : Panel).constructions.map
          (fun c₀ => c₀.weight * (c₀.base_price : ℝ))).sum = c.weight * (c.base_price : ℝ) := by
        simp
      rw [this, hsum, Option.map_some', mul_div_cancel_left₀ _ hw]
    · unfold Panel.calc_base_price Panel.calc_trimmed_mean_price
      rw [if_neg (by decide), if_neg (by decide), if_pos rfl, if_neg (by rw [hone]; simp)]
      simp [sortedQ, List.insertionSort]
    · unfold Panel.calc_base_price Panel.calc_median_price
      rw [if_neg (by decide), if_neg (by decide), if_neg (by decide), if_pos rfl,
        if_neg (by rw [hone]; simp)]
      simp [sortedQ, List.insertionSort]

/-- C5 (counterexample): a one-candidate panel whose price is `1/4`: the
"mean" method returns `round(1/4, 0) = 0.0`, not the candidate's base
price — `calc_base_price` rounds to `n` decimals (default 0), so the claim
"all four methods return that candidate's price" fails as stated. -/
theorem claim_C5_counterexample :
    Panel.calc_base_price ⟨[cex_c]⟩ SMethod.mean 0 = some 0 ∧
    Panel.calc_base_price ⟨[cex_c]⟩ SMethod.mean 0 ≠
      some ((cex_c.base_price : ℚ) : ℝ) := by
  have hval : Panel.calc_base_price ⟨[cex_c]⟩ SMethod.mean 0 = some 0 := by
    unfold Panel.calc_base_price Panel.calc_mean_price
    rw [if_pos rfl, if_neg (by decide)]
    have hmean : ((⟨[cex_c]⟩ : Panel).constructions.map (·.base_price)).sum /
        ((((⟨[cex_c]⟩ : Panel).constructions.map (·.base_price)).length : ℚ)) =
          (1/4 : ℚ) := by
      simp [cex_c]
    rw [hmean, rndTo_ratCast]
    have : rndTo 0 (1/4 : ℚ) = 0 := by
      unfold rndTo rnd
      rw [if_neg, round_eq]
      · norm_num
      · unfold Int.fract
        norm_num
    rw [this]
    norm_num
  refine ⟨hval, ?_⟩
  rw [hval]
  intro hc
  rw [show cex_c.base_price = (1/4 : ℚ) from rfl] at hc
  have : (0 : ℝ) = ((1/4 : ℚ) : ℝ) := Option.some.inj hc
  norm_num at this

/-- C5 witness: the amended theorem applied to a weight-1 candidate with
price 5 and the "mean" method. -/
theorem claim_C5_base_price_witness :
    Panel.calc_base_price ⟨[wit_c]⟩ SMethod.mean 0 =
      some (rndTo 0 ((wit_c.base_price : ℚ) : ℝ)) :=
  (claim_C5_base_price_amended wit_c 0 SMethod.mean).2.2
    (by rw [show wit_c.weight = (1:ℝ) from rfl]; norm_num) (Or.inl rfl)

/-- C6: the once-per-run pre-pass keeps exactly the reference rows whose
advertiser differs from the current one, whose historical base price is
non-null and positive, and whose rental coefficient exceeds 0.3 — removing
precisely the rows the claim lists; consequently every row of the pool used
for matching has a positive base price, rental coefficient > 0.3, and an
advertiser different from the current advertiser. -/
theorem claim_C6_pre_pass (db : List RefRow) (adv : String) :
    (∀ r : RefRow, r ∈ pre_pass db adv ↔
      (r ∈ db ∧ r.advertiser ≠ adv ∧ (∃ p, r.base_price = some p ∧ 0 < p) ∧
        (0.3 : ℚ) < r.rental_c)) ∧
    (∀ r ∈ pre_pass db adv,
      r.advertiser ≠ adv ∧ (∃ p, r.base_price = some p ∧ 0 < p) ∧
        (0.3 : ℚ) < r.rental_c) := by
  have hmem : ∀ r : RefRow, r ∈ pre_pass db adv ↔
      (r ∈ db ∧ r.advertiser ≠ adv ∧ (∃ p, r.base_price = some p ∧ 0 < p) ∧
        (0.3 : ℚ) < r.rental_c) := by
    intro r
    unfold pre_pass
    simp only [List.mem_filter, bne_iff_ne, decide_eq_true_eq, ne_eq]
    cases hbp : r.base_price with
    | none => simp [hbp]
    | some q =>
      simp only [hbp, Option.some.injEq, decide_eq_true_eq]
      constructor
      · rintro ⟨⟨⟨hin, hne⟩, hq⟩, hrent⟩
        exact ⟨hin, hne, ⟨q, rfl, hq⟩, hrent⟩
      · rintro ⟨hin, hne, ⟨p, hp, hp0⟩, hrent⟩
        cases hp
        exact ⟨⟨⟨hin, hne⟩, hp0⟩, hrent⟩
  exact ⟨hmem, fun r hr => ((hmem r).mp hr).2⟩

/-- C6 witness: a one-row pool for advertiser "X": the candidate (advertiser
"A", price 100, rental coefficient 1) survives the pre-pass and satisfies the
invariants. -/
theorem claim_C6_pre_pass_witness :
    (scenario_cand "A").advertiser ≠ "X" ∧
    (∃ p, (scenario_cand "A").base_price = some p ∧ 0 < p) ∧
    (0.3 : ℚ) < (scenario_cand "A").rental_c :=
  (claim_C6_pre_pass [scenario_cand "A"] "X").2 (scenario_cand "A")
    (((claim_C6_pre_pass [scenario_cand "A"] "X").1 (scenario_cand "A")).mpr
      ⟨List.mem_singleton_self _, by decide, ⟨100, rfl, by norm_num⟩,
        by rw [show (scenario_cand "A").rental_c = 1 from rfl]; norm_num⟩)

theorem cum_mul_div (target : List (ℤ × ℚ)) :
    ∀ ys : List ℤ,
      (∀ y ∈ ys, ∃ rr, Coefficient.lookupYear target y = some rr ∧ rr ≠ 0) →
      ∃ P : ℚ, P ≠ 0 ∧ (∀ acc, Coefficient.cum_mul target acc ys = some (acc * P)) ∧
        (∀ acc, Coefficient.cum_div target acc ys = some (acc / P)) := by
  intro ys
  induction ys with
  | nil =>
    intro _
    exact ⟨1, one_ne_zero, fun acc => by simp [Coefficient.cum_mul],
      fun acc => by simp [Coefficient.cum_div]⟩
  | cons y ys ih =>
    intro h
    obtain ⟨r, hry, hr0⟩ := h y (List.mem_cons_self y ys)
    obtain ⟨P, hP0, hm, hd⟩ := ih (fun y' hy' => h y' (List.mem_cons_of_mem _ hy'))
    refine ⟨r * P, mul_ne_zero hr0 hP0, ?_, ?_⟩
    · intro acc
      unfold Coefficient.cum_mul
      rw [hry]
      show Coefficient.cum_mul target (acc * r) ys = some (acc * (r * P))
      rw [hm (acc * r), mul_assoc]
    · intro acc
      unfold Coefficient.cum_div
      rw [hry]
      show (if r = 0 then none else Coefficient.cum_div target (acc / r) ys) =
        some (acc / (r * P))
      rw [if_neg hr0, hd (acc / r), div_div]

/-- C7: whenever the rate table resolves for the subject and format (or via
the default table) and a nonzero rate is available for every year between
the two years, `calc_inflation_c` returns exactly `1.0` for equal years, and
for distinct years the forward and backward coefficients are
`round(P, 4)` and `round(P⁻¹, 4)` for one and the same nonzero cumulative
product `P` — the two unrounded values are exact reciprocals, so their
product is 1 up to the 4-decimal rounding applied to each factor. -/
theorem claim_C7_inflation_reciprocal
    (rates : List (String × List (String × List (ℤ × ℚ)))) (s fmt : String)
    (y1 y2 : ℤ) (d : Option (List (ℤ × ℚ))) (target : List (ℤ × ℚ))
    (hres : Coefficient.resolve_rates rates s fmt d = some target)
    (havail : ∀ y ∈ Coefficient.year_range (min y1 y2) (max y1 y2),
      ∃ rr, Coefficient.lookupYear target y = some rr ∧ rr ≠ 0) :
    (y1 = y2 → Coefficient.calc_inflation_c rates s fmt y1 y2 d 4 = some 1) ∧
    (y1 ≠ y2 → ∃ P : ℚ, P ≠ 0 ∧
      Coefficient.calc_inflation_c rates s fmt y1 y2 d 4 = some (rndTo 4 P) ∧
      Coefficient.calc_inflation_c rates s fmt y2 y1 d 4 = some (rndTo 4 P⁻¹)) := by
  have hred : ∀ a b : ℤ, Coefficient.calc_inflation_c rates s fmt a b d 4 =
      (if a = b then some 1
       else if a < b then
         Option.map (rndTo 4) (Coefficient.cum_mul target 1 (Coefficient.year_range a b))
       else
         Option.map (rndTo 4) (Coefficient.cum_div target 1 (Coefficient.year_range b a))) := by
    intro a b
    unfold Coefficient.calc_inflation_c
    rw [hres]
  constructor
  · intro heq
    rw [hred, if_pos heq]
  · intro hne
    rcases lt_or_gt_of_ne hne with hlt | hgt
    · rw [min_eq_left hlt.le, max_eq_right hlt.le] at havail
      obtain ⟨P, hP0, hm, hd⟩ := cum_mul_div target (Coefficient.year_range y1 y2) havail
      refine ⟨P, hP0, ?_, ?_⟩
      · rw [hred, if_neg hne, if_pos hlt, hm 1, Option.map_some', one_mul]
      · rw [hred, if_neg (Ne.symm hne), if_neg (not_lt.mpr hlt.le), hd 1,
          Option.map_some', one_div]
    · rw [min_eq_right hgt.le, max_eq_left hgt.le] at havail
      obtain ⟨P, hP0, hm, hd⟩ := cum_mul_div target (Coefficient.year_range y2 y1) havail
      refine ⟨P⁻¹, inv_ne_zero hP0, ?_, ?_⟩
      · rw [hred, if_neg hne, if_neg (not_lt.mpr hgt.le), hd 1, Option.map_some',
          one_div]
      · rw [hred, if_neg (Ne.symm hne), if_pos hgt, hm 1, Option.map_some', one_mul,
          inv_inv]

/-- C7 witness: Moscow "CB" rates 1.1 (2023) and 1.2 (2024), from 2023 to
2025 and back. -/
theorem claim_C7_inflation_reciprocal_witness :
    ∃ P : ℚ, P ≠ 0 ∧
      Coefficient.calc_inflation_c infl_rates "RU-MOW" "CB" 2023 2025 none 4 =
        some (rndTo 4 P) ∧
      Coefficient.calc_inflation_c infl_rates "RU-MOW" "CB" 2025 2023 none 4 =
        some (rndTo 4 P⁻¹) :=
  (claim_C7_inflation_reciprocal infl_rates "RU-MOW" "CB" 2023 2025 none
    [(2023, 11/10), (2024, 6/5)] rfl
    (by
      intro y hy
      rw [show Coefficient.year_range (min (2023:ℤ) 2025) (max (2023:ℤ) 2025) =
        [2023, 2024] from rfl] at hy
      rcases List.mem_cons.mp hy with rfl | hy2
      · exact ⟨11/10, rfl, by norm_num⟩
      · rcases List.mem_cons.mp hy2 with rfl | hy3
        · exact ⟨6/5, rfl, by norm_num⟩
        · simp at hy3)).2 (by decide)

/-- C8 witness: an MF row against a one-row pool whose only format is "CB". -/
theorem claim_C8_mf_empty_pool_witness :
    create_panel st_default no_subjects scenario_row_mf [scenario_cand "A"] = ⟨[]⟩ :=
  claim_C8_mf_empty_pool st_default no_subjects scenario_row_mf [scenario_cand "A"]
    rfl
    (by
      intro r hr
      rw [List.mem_singleton] at hr
      subst hr
      decide)

/-- C9: on an empty LineItem table `execute` returns (totally, with no raised
error) an empty result frame whose schema is the input schema plus every one
of the seven expected output columns — `panel_base_price` as Float64 and
`advertisers`, `operators`, `constructions`, `advertiser_shares`,
`operator_shares`, `subject_name` as String — each appended as a typed null
column when not already present; the result carries zero data rows. -/
theorem claim_C9_empty_input (in_cols : List (String × DType)) (st : OOHSettings)
    (subjects : String → List String) (db : List RefRow)
    (dist_col : LineRow → RefRow → ℚ) :
    execute in_cols st subjects [] db dist_col =
      ⟨add_missing_cols in_cols res_cols, []⟩ ∧
    (∀ c ∈ res_cols,
      c.1 ∈ (execute in_cols st subjects [] db dist_col).schema.map Prod.fst) ∧
    (∀ c ∈ res_cols, c.1 ∉ in_cols.map Prod.fst →
      c ∈ (execute in_cols st subjects [] db dist_col).schema) ∧
    (execute in_cols st subjects [] db dist_col).rows = [] := by
  have hx : execute in_cols st subjects [] db dist_col =
      ⟨add_missing_cols in_cols res_cols, []⟩ := rfl
  have hkept : ∀ c ∈ res_cols, c.1 ∉ in_cols.map Prod.fst →
      c ∈ add_missing_cols in_cols res_cols := by
    intro c hc hnot
    unfold add_missing_cols
    rw [List.mem_append]
    right
    rw [List.mem_filter]
    refine ⟨hc, ?_⟩
    rw [List.all_eq_true]
    intro c₀ hc₀
    rw [bne_iff_ne]
    intro heq
    exact hnot (List.mem_map.mpr ⟨c₀, hc₀, heq⟩)
  refine ⟨hx, ?_, ?_, by rw [hx]⟩
  · intro c hc
    rw [hx]
    show c.1 ∈ (add_missing_cols in_cols res_cols).map Prod.fst
    by_cases hin : c.1 ∈ in_cols.map Prod.fst
    · unfold add_missing_cols
      rw [List.map_append, List.mem_append]
      exact Or.inl hin
    · exact List.mem_map.mpr ⟨c, hkept c hc hin, rfl⟩
  · intro c hc hnot
    rw [hx]
    exact hkept c hc hnot

/-- C9 witness: the theorem applied at an empty input schema. -/
theorem claim_C9_empty_input_witness :
    execute [] st_default no_subjects [] [] (fun _ r => r.dist) =
      ⟨add_missing_cols [] res_cols, []⟩ ∧
    ("panel_base_price", DType.float64) ∈
      (execute [] st_default no_subjects [] [] (fun _ r => r.dist)).schema :=
  ⟨(claim_C9_empty_input [] st_default no_subjects [] (fun _ r => r.dist)).1,
    (claim_C9_empty_input [] st_default no_subjects [] (fun _ r => r.dist)).2.2.1
      ("panel_base_price", DType.float64) (by simp [res_cols]) (by simp)⟩

/-- C10: the non-MF radius sequence `np.arange(0.0, 5.0 + 0.5, 0.5)` is
exactly the eleven values 0.0, 0.5, …, 5.0 km — `⌈(5.5 - 0)/0.5⌉ = 11`
exact steps, each value a dyadic rational `m/2` with `|m| ≤ 10` (hence
exactly representable in binary floating point, so no accumulation error can
drop the 5.0 endpoint); and a level is only ever advanced past after the
acceptance test at radius exactly 5.0 km failed there (it is the last radius
of the sequence). -/
theorem claim_C10_radius_sequence :
    RAD_RANGE = [0, 0.5, 1, 1.5, 2, 2.5, 3, 3.5, 4, 4.5, 5] ∧
    RAD_RANGE.length = 11 ∧
    RAD_RANGE.getLast? = some 5 ∧
    (∀ v ∈ RAD_RANGE, ∃ m : ℤ, |m| ≤ 10 ∧ v = (m : ℚ) / 2) ∧
    (∀ (st : OOHSettings) (subjects : String → List String) (row : LineRow)
        (db : List RefRow) (lvl : ℤ),
      RAD_RANGE.findSome? (try_combo st subjects row db lvl) = none →
      try_combo st subjects row db lvl 5 = none) := by
  refine ⟨RAD_RANGE_eq, by rw [RAD_RANGE_eq]; rfl, ?_, ?_, ?_⟩
  · rw [RAD_RANGE_eq]
    norm_num [List.getLast?]
  · intro v hv
    rw [RAD_RANGE_eq] at hv
    simp only [List.mem_cons, List.not_mem_nil, or_false] at hv
    rcases hv with rfl | rfl | rfl | rfl | rfl | rfl | rfl | rfl | rfl | rfl | rfl
    exacts [⟨0, by norm_num⟩, ⟨1, by norm_num⟩, ⟨2, by norm_num⟩, ⟨3, by norm_num⟩,
      ⟨4, by norm_num⟩, ⟨5, by norm_num⟩, ⟨6, by norm_num⟩, ⟨7, by norm_num⟩,
      ⟨8, by norm_num⟩, ⟨9, by norm_num⟩, ⟨10, by norm_num⟩]
  · intro st subjects row db lvl h
    rw [List.findSome?_eq_none_iff] at h
    refine h 5 ?_
    rw [RAD_RANGE_eq]
    simp

/-- C10 witness: 5.0 is in the radius sequence with `m = 10`, and on an
empty pool every radius (in particular 5.0) fails, matching the last
conjunct. -/
theorem claim_C10_radius_sequence_witness :
    ((5 : ℚ) ∈ RAD_RANGE ∧ ∃ m : ℤ, |m| ≤ 10 ∧ (5 : ℚ) = (m : ℚ) / 2) ∧
    try_combo st_default no_subjects scenario_row [] 0 5 = none := by
  have h5 : (5 : ℚ) ∈ RAD_RANGE := by
    rw [RAD_RANGE_eq]
    simp
  constructor
  · exact ⟨h5, claim_C10_radius_sequence.2.2.2.1 5 h5⟩
  · refine claim_C10_radius_sequence.2.2.2.2 st_default no_subjects scenario_row [] 0 ?_
    rw [List.findSome?_eq_none_iff]
    intro r _
    unfold try_combo
    rw [filter_subj_default, apply_lvl_fltrs_nil]
    exact try_radius_nil_db scenario_row 0 _ r

end Trinity
